import Mathlib

/-!
Shallow embedding of the Leads-Prospecting repository's pure core:
the normalization utilities and record-fusion engine of `extractors.py`,
the polling loop and Google-search result shaping of `apify_client.py`,
and the candidate validation of `person_prospect.py`.

Conventions of the embedding:
* Python strings are Lean `String` (a wrapper around `List Char`); character
  classes (`\d`, whitespace, `lower`) are embedded via `Char.isDigit`,
  `Char.isWhitespace`, `Char.toLower`, which agree with Python on the ASCII
  inputs this program handles.
* Python `None` becomes `none`; Python truthiness of an optional string
  (`if not x`) is `pyTruthy` (absent or empty is falsy).
* `extractors.py` defines several functions twice; the later definition
  shadows the earlier one at import time, so this file embeds the later,
  effective definitions.
* Python `set()` iteration feeding a `sorted(...)` is modeled by
  first-occurrence deduplication followed by insertion sort under the
  code-point lexicographic order `pyStrLe` (Python's string order);
  since the result is a sorted duplicate-free list of the same elements,
  iteration order of the set is immaterial.
* JSON scalar payloads that the code only passes through (`ratingValue`,
  `sitelinks`, ...) are carried as strings; `str(x)` on such a carried
  scalar is the identity.
-/

/-! ### Generic Python-style string helpers (over `List Char`) -/

/-- Python truthiness of an optional string: `None` and `""` are falsy. -/
def pyTruthy : Option String → Bool
  | none => false
  | some s => s ≠ ""

/-- Python `x or y` on optional strings: yields `y` whenever `x` is falsy. -/
def pyOr (x y : Option String) : Option String :=
  if pyTruthy x then x else y

/-- Python `needle in hay` substring test. -/
def containsSub : List Char → List Char → Bool
  | hay, needle =>
    if needle.isPrefixOf hay then true
    else
      match hay with
      | [] => false
      | _ :: t => containsSub t needle

/-- Python `str.lower()` (ASCII behaviour). -/
def pyLower (s : String) : String := ⟨s.data.map Char.toLower⟩

/-- Python `str.upper()` (ASCII behaviour). -/
def pyUpper (s : String) : String := ⟨s.data.map Char.toUpper⟩

/-- Drop trailing occurrences of character `c` — Python `str.rstrip(c)`. -/
def rstripChar (c : Char) (l : List Char) : List Char :=
  (l.reverse.dropWhile (· = c)).reverse

/-- Python `str.strip()` (whitespace on both ends). -/
def pyStrip (l : List Char) : List Char :=
  ((l.dropWhile Char.isWhitespace).reverse.dropWhile Char.isWhitespace).reverse

/-- Drop trailing whitespace — Python `str.rstrip()`. -/
def rstripWs (l : List Char) : List Char :=
  (l.reverse.dropWhile Char.isWhitespace).reverse

/-- Python `str.split(sep)[0]` for a one-character separator. -/
def takeUntilChar (c : Char) (l : List Char) : List Char := l.takeWhile (· ≠ c)

/-- Python `str.split(sep)` for a one-character separator (keeps empty parts). -/
def splitOnChar (c : Char) : List Char → List (List Char)
  | [] => [[]]
  | x :: xs =>
    if x = c then [] :: splitOnChar c xs
    else
      match splitOnChar c xs with
      | [] => [[x]]
      | h :: t => (x :: h) :: t

/-- Python `", ".join(parts)`-style joining. -/
def joinSep (sep : String) : List String → String
  | [] => ""
  | [x] => x
  | x :: xs => x ++ sep ++ joinSep sep xs

/-- First-occurrence-order deduplication with an accumulator of already-seen
elements — Python `list(dict.fromkeys(xs))`. -/
def dedupFirstAux (seen : List String) : List String → List String
  | [] => []
  | x :: xs =>
    if x ∈ seen then dedupFirstAux seen xs
    else x :: dedupFirstAux (x :: seen) xs

/-- Python `list(dict.fromkeys(xs))`: deduplicate keeping the first occurrence. -/
def dedupFirst (xs : List String) : List String := dedupFirstAux [] xs

/-- Python's string comparison: lexicographic on code points. -/
def lexLe : List Char → List Char → Bool
  | [], _ => true
  | _ :: _, [] => false
  | x :: xs, y :: ys => if x = y then lexLe xs ys else decide (x < y)

/-- Python `s <= t` on strings, as a proposition. -/
def pyStrLe (a b : String) : Prop := lexLe a.data b.data = true

instance : DecidableRel pyStrLe := fun a b => by unfold pyStrLe; infer_instance

/-- Python `sorted(set(xs))`: a sorted duplicate-free list of the elements. -/
def pySortedSet (xs : List String) : List String :=
  List.insertionSort pyStrLe (dedupFirst xs)

/-! ### `urllib.parse.urlparse(u).netloc`, for the URL shapes this program
feeds it (an optional `scheme:` followed by `//host/...`). -/

/-- Is `l` a well-formed URL scheme body (letter first, then letters, digits,
`+`, `-`, `.`), as `urlparse` requires before splitting at the first colon? -/
def validScheme (l : List Char) : Bool :=
  match l with
  | [] => false
  | c :: rest =>
    c.isAlpha && rest.all fun d => d.isAlphanum || d = '+' || d = '-' || d = '.'

/-- Embeds `urllib.parse.urlparse(u).netloc`: strip a leading `scheme:` when present;
if the remainder starts with `//`, the netloc extends to the next `/`, `?` or
`#`; otherwise the netloc is empty. -/
def urlparseNetloc (u : String) : String :=
  let l := u.data
  let beforeColon := takeUntilChar ':' l
  let rest :=
    if (':' ∈ l) && validScheme beforeColon then (l.dropWhile (· ≠ ':')).drop 1
    else l
  match rest with
  | '/' :: '/' :: r => ⟨r.takeWhile fun c => c ≠ '/' && c ≠ '?' && c ≠ '#'⟩
  | _ => ""

/-! ### Normalization utilities (`extractors.py`, effective definitions) -/

/-- Embeds `_root_token(host)`: `None` for a falsy host, else the second-to-last
dot-separated label of the lowercased host (or the sole label). -/
def root_token (host : Option String) : Option String :=
  match host with
  | none => none
  | some h =>
    if h = "" then none
    else
      let parts := splitOnChar '.' (pyLower h).data
      if parts.length ≥ 2 then some ⟨parts.getD (parts.length - 2) []⟩
      else some ⟨parts.getD 0 []⟩

/-- The domain part of an email: Python `e.split("@", 1)[1].lower()`,
`none` when the address has no `@`. -/
def emailDomain (e : String) : Option String :=
  if '@' ∈ e.data then some (pyLower ⟨(e.data.dropWhile (· ≠ '@')).drop 1⟩)
  else none

/-- Embeds `_filter_emails_by_domain(emails, official_url)` (the later, effective
definition): with a truthy official URL whose host yields a truthy brand
token, keep the addresses whose domain contains the token as a substring,
sorted and deduplicated; otherwise return the full sorted deduplicated set. -/
def filter_emails_by_domain (emails : List String) (official_url : Option String) :
    List String :=
  if emails = [] then []
  else if ¬ pyTruthy official_url then pySortedSet emails
  else
    let url := official_url.getD ""
    let host := urlparseNetloc url
    match root_token (some host) with
    | none => pySortedSet emails
    | some token =>
      if token = "" then pySortedSet emails
      else
        let keep := (dedupFirst emails).filter fun e =>
          match emailDomain e with
          | some d => containsSub d.data token.data
          | none => false
        pySortedSet keep

/-- Embeds `_clean_phone(p)`: keep the digits and plus signs of `p`; reject unless
the digit count lies in `[8, 15]`. -/
def clean_phone (p : String) : Option String :=
  let digits := p.data.filter fun c => c.isDigit || c = '+'
  let dcount := (digits.filter Char.isDigit).length
  if dcount < 8 || dcount > 15 then none else some ⟨digits⟩

/-- Embeds `_merge_and_clean_phones(raws)`: clean each raw phone, drop rejects,
return the sorted deduplicated survivors. -/
def merge_and_clean_phones (raws : List String) : List String :=
  pySortedSet (raws.filterMap clean_phone)

/-- Embeds `_pick_linkedin(urls)`: prefer a link containing `/company/` but not
`/posts`; otherwise the first link; `None` on an empty list. -/
def pick_linkedin (urls : List String) : Option String :=
  if urls = [] then none
  else
    let companies := urls.filter fun u =>
      containsSub u.data "/company/".data && !(containsSub u.data "/posts".data)
    match companies with
    | c :: _ => some c
    | [] => urls.head?

/-- Embeds `_strip_trailing_dash(u)`: drop one trailing `-` from a truthy string. -/
def strip_trailing_dash (u : String) : String :=
  if u ≠ "" && ['-'].isSuffixOf u.data then ⟨u.data.dropLast⟩ else u

/-- The string transformation inside `_clean_linkedin`: cut at the first `?`,
strip trailing slashes, strip one trailing `/posts` (plus the slashes it
exposes), then one trailing hyphen. -/
def normalizeLink (s : String) : String :=
  let u1 := takeUntilChar '?' s.data
  let u2 := rstripChar '/' u1
  let u3 := if "/posts".data.isSuffixOf u2 then rstripChar '/' (u2.take (u2.length - 6)) else u2
  strip_trailing_dash ⟨u3⟩

/-- Embeds `_clean_linkedin(u)`: `None` on a falsy input, else `normalizeLink`. -/
def clean_linkedin (u : Option String) : Option String :=
  if ¬ pyTruthy u then none else some (normalizeLink (u.getD ""))

/-- The lowercase text blob `f"{category.lower()} {schema.lower()}"` that
`_classify_industry` matches its keywords against. -/
def classifyText (category schema : String) : List Char :=
  (pyLower category).data ++ ' ' :: (pyLower schema).data

/-- Embeds `_classify_industry(category, schema)`: ordered keyword taxonomy,
hospitality cluster first, then software/technology, then food service. -/
def classify_industry (category schema : String) : String × String :=
  let text := classifyText category schema
  let has := fun (kw : String) => containsSub text kw.data
  if ["hotel", "resort", "lodging", "accommodation", "apartment", "stay", "hostel"].any has then
    if has "hotel" then ("Hospitality", "Hotel")
    else if has "resort" then ("Hospitality", "Resort")
    else if ["apartment", "accommodation", "stay", "hostel"].any has then
      ("Hospitality", "Accommodation")
    else ("Hospitality", "")
  else if ["software", "it", "technology", "saas", "ai", "data"].any has then
    ("Software/IT", "")
  else if ["restaurant", "cafe", "bar"].any has then
    ("Food & Beverage", if has "restaurant" then "Restaurant" else "")
  else ("", "")

/-- All keywords of `_classify_industry`'s ordered taxonomy, in rule order. -/
def classifierKeywords : List String :=
  ["hotel", "resort", "lodging", "accommodation", "apartment", "stay", "hostel",
   "software", "it", "technology", "saas", "ai", "data", "restaurant", "cafe", "bar"]

/-- The regex substitution `re.sub(r"\s*-\s*Home\s*$", "", c, flags=re.I)` of
`guess_company_name`: remove a trailing `- Home` (case-insensitive on `Home`,
flexible whitespace) when present. -/
def stripDashHome (c : List Char) : List Char :=
  let t1 := rstripWs c
  if "home".data.isSuffixOf (t1.map Char.toLower) then
    let t2 := rstripWs (t1.take (t1.length - 4))
    if ['-'].isSuffixOf t2 then rstripWs (t2.take (t2.length - 1)) else c
  else c

/-- Embeds `guess_company_name(site_name, title)` (the later, effective definition):
for the first truthy candidate, cut everything from the first `|` on, strip
whitespace, remove a trailing `- Home`; if the result is truthy return it;
otherwise fall back to `site_name or title`. -/
def guess_company_name (site_name title : Option String) : Option String :=
  let tryCand := fun (cand : String) =>
    let c := pyStrip (takeUntilChar '|' cand.data)
    let c2 := stripDashHome c
    if c2 ≠ [] then some (⟨c2⟩ : String) else none
  let fromLoop :=
    (if pyTruthy site_name then tryCand (site_name.getD "") else none) <|>
    (if pyTruthy title then tryCand (title.getD "") else none)
  match fromLoop with
  | some r => some r
  | none => if pyTruthy site_name then site_name else title

/-- The country-code table `COUNTRY_CODE_MAP`. -/
def COUNTRY_CODE_MAP : List (String × String) :=
  [("IN", "India"), ("US", "United States"), ("GB", "United Kingdom"),
   ("AE", "United Arab Emirates"), ("SG", "Singapore"), ("DE", "Germany"),
   ("FR", "France"), ("ES", "Spain"), ("IT", "Italy"), ("CA", "Canada"),
   ("AU", "Australia")]

/-- Embeds `_expand_country(val)`: empty for a falsy value, else look the stripped,
uppercased value up in the table, passing unknown values through stripped. -/
def expand_country (val : String) : String :=
  if val = "" then ""
  else
    let v : String := ⟨pyStrip val.data⟩
    match COUNTRY_CODE_MAP.lookup (pyUpper v) with
    | some name => name
    | none => v

/-- A search result as shaped by `google_search`: the dict
`{"url", "title", "snippet", "siteLinks"}`. -/
structure GoogleResult where
  url : Option String
  title : Option String
  snippet : Option String
  siteLinks : Option String
deriving DecidableEq

/-- Embeds `pick_official_site(google_results)` (effective definition): first result
whose URL contains no known non-authoritative host fragment; if none
qualifies, the first result's URL. -/
def pick_official_site (google_results : List GoogleResult) : Option String :=
  if google_results = [] then none
  else
    let bad_hosts := ["linkedin.com", "facebook.com", "instagram.com", "tripadvisor.",
                      "booking.", "google.com", "maps.google"]
    let filtered := google_results.filter fun r =>
      !(bad_hosts.any fun b => containsSub (r.url.getD "").data b.data)
    match filtered with
    | r :: _ => r.url
    | [] => (google_results.head?).bind fun r => r.url

/-! ### The record-fusion engine `assemble_lead_record` (`extractors.py`) -/

/-- A schema.org-style address object: `{city, region, country}` from scraped
pages, with the additional `countryCode` key the Maps path reads. -/
structure Address where
  city : Option String
  region : Option String
  country : Option String
  countryCode : Option String
deriving DecidableEq

/-- The empty address dict `{}` that `addr or {}` falls back to. -/
def Address.empty : Address := ⟨none, none, none, none⟩

/-- One scraped page's `pageFunctionResult` object, with exactly the field set
the fusion loop reads (absent JSON keys are `none`; the JSON wrapper around
`pageFunctionResult` is transport plumbing and is unwrapped here). -/
structure ScrapedRow where
  emails : List String
  phones : List String
  structuredTelephones : List String
  linkedins : List String
  ratingValue : Option String
  reviewCount : Option String
  siteName : Option String
  title : Option String
  address : Option Address
  schemaType : Option String
deriving DecidableEq

/-- The normalized Google-Maps place dict built by `google_maps_enrich`,
plus the two `_raw` members the fusion engine reads (`categoryName` and
`location`; coordinates are modeled as exact rationals). -/
structure MapsPlace where
  name : Option String
  website : Option String
  phone : Option String
  internationalPhoneNumber : Option String
  rating : Option String
  userRatingsTotal : Option String
  city : Option String
  country : Option String
  address : Option Address
  rawCategoryName : Option String
  rawLocation : Option (ℚ × ℚ)
deriving DecidableEq

/-- The canonical output record of `assemble_lead_record` (its dict keys,
in order). -/
structure LeadRecord where
  leadName : String
  designationRole : String
  companyName : String
  countryCity : String
  industrySegment : String
  propertyType : String
  starRating : String
  emailID : String
  phoneVerified : String
  linkedinURL : String
  departmentFunction : String
  timeZone : String
  companyNameLinked : String
  websiteURL : String
  numberOfProperties : String
  numberOfRooms : String
  averageDailyRate : String
  locationsOfOperation : String
  industryType : String
  googleRating : String
  totalGoogleReviews : String
deriving DecidableEq

/-- The mutable accumulators of `assemble_lead_record`'s source loops.
`all_emails` and `locations` are Python sets, modeled as insertion-ordered
lists (they are deduplicated, respectively sorted, before use). -/
structure FuseState where
  all_emails : List String
  all_phones : List String
  all_linkedins : List String
  rating_value : Option String
  review_count : Option String
  company : Option String
  city : Option String
  country : Option String
  industry_type : Option String
  timezone : String
  locations : List String

/-- The initial accumulator state. -/
def FuseState.init : FuseState :=
  ⟨[], [], [], none, none, none, none, none, none, "", []⟩

/-- Add a location string to the `locations` set. -/
def addLocation (locs : List String) (s : String) : List String :=
  if s ∈ locs then locs else locs ++ [s]

/-- The `", ".join([p for p in loc_parts if p])` composite location string. -/
def locString (parts : List (Option String)) : String :=
  joinSep ", " ((parts.filter pyTruthy).map fun p => p.getD "")

/-- The scraped-website-signals loop body of `assemble_lead_record`. -/
def processRow (st : FuseState) (row : ScrapedRow) : FuseState :=
  let st := { st with all_emails := st.all_emails ++ row.emails }
  let st := { st with all_phones := st.all_phones ++ row.phones ++ row.structuredTelephones }
  let st := { st with all_linkedins :=
    st.all_linkedins ++ row.linkedins.filterMap fun l =>
      match clean_linkedin (some l) with
      | some cl => if cl ≠ "" then some cl else none
      | none => none }
  let st := if row.ratingValue.isSome && st.rating_value.isNone then
      { st with rating_value := row.ratingValue } else st
  let st := if row.reviewCount.isSome && st.review_count.isNone then
      { st with review_count := row.reviewCount } else st
  let st := if ¬ pyTruthy st.company then
      { st with company := guess_company_name row.siteName row.title } else st
  let addr := row.address.getD Address.empty
  let st := if ¬ pyTruthy st.city && pyTruthy addr.city then
      { st with city := addr.city } else st
  let st := if ¬ pyTruthy st.country && pyTruthy addr.country then
      { st with country := addr.country } else st
  let loc_str := locString [addr.city, addr.region, addr.country]
  let st := if loc_str ≠ "" then { st with locations := addLocation st.locations loc_str } else st
  let stype := (pyOr row.schemaType (some "")).getD ""
  if ¬ pyTruthy st.industry_type then
    let s := pyLower stype
    if containsSub s.data "hotel".data then { st with industry_type := some "Hotel" }
    else if containsSub s.data "resort".data then { st with industry_type := some "Resort" }
    else if containsSub s.data "organization".data then
      { st with industry_type := some "Organization" }
    else st
  else st

/-- The Google-Maps-enrichment section of `assemble_lead_record`; `tzAt` is
the coordinate-to-timezone oracle (`TimezoneFinder.timezone_at`), whose falsy
or missing answers leave the timezone empty. Returns the updated state and
the possibly overridden official website. -/
def processMaps (tzAt : ℚ → ℚ → Option String) (st : FuseState)
    (official : Option String) (mp : MapsPlace) : FuseState × Option String :=
  let st := if ¬ pyTruthy st.company then { st with company := pyOr mp.name st.company } else st
  let maps_phone := pyOr mp.phone mp.internationalPhoneNumber
  let st := if pyTruthy maps_phone then
      { st with all_phones := st.all_phones ++ [maps_phone.getD ""] } else st
  let official := if pyTruthy mp.website then mp.website else official
  let st := if mp.rating.isSome then { st with rating_value := mp.rating } else st
  let st := if mp.userRatingsTotal.isSome then { st with review_count := mp.userRatingsTotal } else st
  let st := if pyTruthy mp.city && ¬ pyTruthy st.city then { st with city := mp.city } else st
  let st := if pyTruthy mp.country && ¬ pyTruthy st.country then
      { st with country := mp.country } else st
  let addr := mp.address.getD Address.empty
  let st := if ¬ pyTruthy st.city && pyTruthy addr.city then { st with city := addr.city } else st
  let st := if ¬ pyTruthy st.country && (pyTruthy addr.country || pyTruthy addr.countryCode) then
      { st with country := pyOr addr.country addr.countryCode } else st
  let loc_str := locString [addr.city, addr.region, pyOr addr.country addr.countryCode]
  let st := if loc_str ≠ "" then { st with locations := addLocation st.locations loc_str } else st
  let st :=
    match mp.rawLocation with
    | some (lat, lng) =>
      match tzAt lng lat with
      | some tzname => if tzname ≠ "" then { st with timezone := tzname } else st
      | none => st
    | none => st
  (st, official)

/-- Embeds `assemble_lead_record(query, google_results, scraped_rows, maps_place,
linkedin_url)`: the record-fusion engine. -/
def assemble_lead_record (tzAt : ℚ → ℚ → Option String) (query : String)
    (google_results : List GoogleResult) (scraped_rows : List ScrapedRow)
    (maps_place : Option MapsPlace) (linkedin_url : Option String) : LeadRecord :=
  let official := pick_official_site google_results
  let st := scraped_rows.foldl processRow FuseState.init
  let stOff :=
    match maps_place with
    | some mp => processMaps tzAt st official mp
    | none => (st, official)
  let st := stOff.1
  let official := stOff.2
  let emails := filter_emails_by_domain
    (List.insertionSort pyStrLe (dedupFirst st.all_emails)) official
  let phones := merge_and_clean_phones st.all_phones
  let linkedin_candidates :=
    (match clean_linkedin linkedin_url with
     | some cleaned => if cleaned ≠ "" then [cleaned] else []
     | none => []) ++ (dedupFirst st.all_linkedins).filter (· ≠ "")
  let linkedin := pick_linkedin linkedin_candidates
  let maps_category := ((maps_place.bind MapsPlace.rawCategoryName).getD "")
  let segType := classify_industry maps_category ((pyOr st.industry_type (some "")).getD "")
  let industry_segment := segType.1
  let industry_type :=
    if segType.2 ≠ "" && ¬ pyTruthy st.industry_type then some segType.2 else st.industry_type
  let country_expanded := expand_country ((pyOr st.country (some "")).getD "")
  let locations_str :=
    if st.locations ≠ [] then joinSep " | " (dedupFirst st.locations) else ""
  { leadName := query
    designationRole := ""
    companyName := ⟨pyStrip ((pyOr st.company (some "")).getD "").data⟩
    countryCity :=
      if country_expanded ≠ "" || pyTruthy st.city then
        joinSep ", " (([some country_expanded, st.city].filter pyTruthy).map fun v => v.getD "")
      else ""
    industrySegment := industry_segment
    propertyType := ""
    starRating := match st.rating_value with | some rv => rv | none => ""
    emailID := emails.headD ""
    phoneVerified := phones.headD ""
    linkedinURL := (pyOr linkedin (some "")).getD ""
    departmentFunction := ""
    timeZone := st.timezone
    companyNameLinked := ⟨pyStrip ((pyOr st.company (some "")).getD "").data⟩
    websiteURL := (pyOr official (some "")).getD ""
    numberOfProperties := ""
    numberOfRooms := ""
    averageDailyRate := ""
    locationsOfOperation := locations_str
    industryType := (pyOr industry_type (some "")).getD ""
    googleRating := match st.rating_value with | some rv => rv | none => ""
    totalGoogleReviews := match st.review_count with | some rc => rc | none => "" }

/-! ### Job polling (`apify_client.py`, `wait_for_run_finished`) -/

/-- The terminal run statuses of `wait_for_run_finished`. -/
def terminalStatuses : List String :=
  ["SUCCEEDED", "FAILED", "ABORTED", "TIMED-OUT", "TIMED_OUT"]

/-- The outcome of one polling loop: the terminal status it returned, or the
`ApifyError` timeout it raised (carrying the elapsed seconds measured at the
raise and the last observed status). -/
inductive PollResult where
  | finished (status : String)
  | timedOut (elapsedAt : ℚ) (lastStatus : String)
deriving DecidableEq

/-- Embeds `wait_for_run_finished(run_id, timeout_sec, poll_interval)`: the polling
loop, with the remote job abstracted as the status observed at each
iteration (`statuses`) and the wall-clock seconds since `start` measured
right after each fetch (`elapsed`).  Iteration `n` returns the run as soon
as its status is terminal, raises a timeout when the elapsed time exceeds
`timeout_sec`, and otherwise sleeps and repeats; `fuel` bounds the number of
iterations we unfold (`none` = the loop is still running). -/
def wait_for_run_finished (statuses : Nat → String) (elapsed : Nat → ℚ)
    (timeout_sec : ℚ) : Nat → Nat → Option PollResult
  | 0, _ => none
  | fuel + 1, n =>
    let status := statuses n
    if status ∈ terminalStatuses then some (.finished status)
    else if elapsed n > timeout_sec then some (.timedOut (elapsed n) status)
    else wait_for_run_finished statuses elapsed timeout_sec fuel (n + 1)

/-! ### Google search result shaping (`apify_client.py`, `google_search`) -/

/-- One entry of a dataset item's `organicResults` array (only the keys
`google_search` reads). -/
structure OrganicResult where
  url : Option String
  title : Option String
  snippet : Option String
  sitelinks : Option String
deriving DecidableEq

/-- One raw dataset item fetched by `google_search` (only the keys it reads;
note the two sitelink key spellings probed on flat items). -/
structure GSearchItem where
  organicResults : Option (List OrganicResult)
  url : Option String
  title : Option String
  snippet : Option String
  description : Option String
  sitelinks : Option String
  siteLinks : Option String
deriving DecidableEq

/-- The per-item result accumulation loop of `google_search`: an item with a
nonempty `organicResults` list contributes one entry per organic result with
a truthy URL; otherwise a flat item with a truthy URL contributes itself. -/
def googleCollect : List GSearchItem → List GoogleResult
  | [] => []
  | it :: rest =>
    (match it.organicResults with
     | some organic =>
       if organic ≠ [] then
         organic.filterMap fun r =>
           match r.url with
           | some u => if u ≠ "" then
               some { url := some u, title := r.title, snippet := r.snippet,
                      siteLinks := r.sitelinks }
             else none
           | none => none
       else
         match it.url with
         | some u => if u ≠ "" then
             [{ url := some u, title := it.title, snippet := pyOr it.snippet it.description,
                siteLinks := pyOr it.sitelinks it.siteLinks }]
           else []
         | none => []
     | none =>
       match it.url with
       | some u => if u ≠ "" then
           [{ url := some u, title := it.title, snippet := pyOr it.snippet it.description,
              siteLinks := pyOr it.sitelinks it.siteLinks }]
         else []
       | none => []) ++ googleCollect rest

/-- The deterministic tail of `google_search`: shape the fetched dataset
items into result dicts and truncate with `results[:max_results]`. -/
def google_search_results (items : List GSearchItem) (max_results : Nat) : List GoogleResult :=
  (googleCollect items).take max_results

/-! ### Candidate validation (`person_prospect.py`) -/

/-- A company candidate as produced by `parse_companies`. -/
structure Candidate where
  company : String
  website : String
  revenue : String
  headquarters : String
  employees : String
  source : String
deriving DecidableEq

/-- The value of an all-digit numeral — Python `int` on a digit string. -/
def digitsToNat (l : List Char) : Nat :=
  l.foldl (fun n c => 10 * n + (c.toNat - 48)) 0

/-- Python `int(re.sub(r"[^\d]", "", s))`: strip the non-digits and parse;
`none` when no digit remains (`int("")` raises). -/
def pyIntDigits (s : String) : Option Nat :=
  let l := s.data.filter Char.isDigit
  if l = [] then none else some (digitsToNat l)

/-- A parsed decimal value, exactly: `mantissa / 10 ^ fracDigits`.  The
Python floats arising here come from decimal strings and are compared
against 0.5 and 50 only; this exact representation matches those
comparisons (binary-float rounding is immaterial at these magnitudes). -/
structure PyFloat where
  mantissa : Nat
  fracDigits : Nat
deriving DecidableEq

/-- Python `float` on a string of digits and dots (the residue of
`re.sub(r"[^\d.]", "", s)`): at least one digit and at most one dot. -/
def pyFloatDigitsDots (l : List Char) : Option PyFloat :=
  if l.filter Char.isDigit = [] then none
  else if (l.filter (· = '.')).length > 1 then none
  else
    let intPart := l.takeWhile (· ≠ '.')
    let fracPart := (l.dropWhile (· ≠ '.')).drop 1
    some ⟨digitsToNat (intPart ++ fracPart), fracPart.length⟩

/-- The employee-count normalization inside `validate_companies`:
`int(re.sub(r"[^\d]", "", c["employees"].split("-")[0]))`. -/
def empNormalize (employees : String) : Option Nat :=
  pyIntDigits ⟨takeUntilChar '-' employees.data⟩

/-- The revenue normalization inside `validate_companies`:
`float(re.sub(r"[^\d.]", "", c["revenue"]))`. -/
def revNormalize (revenue : String) : Option PyFloat :=
  pyFloatDigitsDots (revenue.data.filter fun c => c.isDigit || c = '.')

/-- The check `0.5 <= rev <= 50`, exactly, on the decimal
`rev = mantissa / 10 ^ fracDigits` (cross-multiplied). -/
def revInRange (x : PyFloat) : Bool :=
  decide (10 ^ x.fracDigits ≤ 2 * x.mantissa) && decide (x.mantissa ≤ 50 * 10 ^ x.fracDigits)

/-- The acceptance test of `validate_companies`: both values parse,
`100 <= emp <= 5000` and `0.5 <= rev <= 50`. -/
def candidateAccepted (c : Candidate) : Bool :=
  match empNormalize c.employees, revNormalize c.revenue with
  | some emp, some rev => decide (100 ≤ emp) && decide (emp ≤ 5000) && revInRange rev
  | _, _ => false

/-- Embeds `validate_companies(companies)`: partition the candidates, in order, into
the accepted and the rejected list (a candidate whose normalization raises
goes to the rejected list). -/
def validate_companies : List Candidate → List Candidate × List Candidate
  | [] => ([], [])
  | c :: cs =>
    let rest := validate_companies cs
    match empNormalize c.employees, revNormalize c.revenue with
    | some emp, some rev =>
      if decide (100 ≤ emp) && decide (emp ≤ 5000) && revInRange rev then
        (c :: rest.1, rest.2)
      else (rest.1, c :: rest.2)
    | _, _ => (rest.1, c :: rest.2)

/-! ### Definitions following the spec's words, for comparison with the code
(used only to refute over-specified claims). -/

/-- Follows the spec's words for phone cleaning: strip every character except
digits and a single LEADING plus sign, then apply the same `[8, 15]`
digit-count gate as the code. -/
def clean_phone_specWords (p : String) : Option String :=
  let kept :=
    match p.data with
    | '+' :: rest => '+' :: rest.filter Char.isDigit
    | l => l.filter Char.isDigit
  let dcount := (kept.filter Char.isDigit).length
  if dcount < 8 || dcount > 15 then none else some ⟨kept⟩

/-- Follows the spec's words for revenue normalization: the numeric value of
the string (commas as thousands separators), scaled by a trailing `K`/`M`/`B`
suffix, expressed in millions (a suffix-free amount is read as dollars). -/
def revenueToMillionsSpecWords (revenue : String) : Option PyFloat :=
  let trimmed := pyStrip revenue.data
  let core := trimmed.filter fun c => c ≠ '$' && c ≠ ',' && ¬ c.isWhitespace
  match core.reverse with
  | [] => none
  | last :: restRev =>
    if last = 'K' || last = 'k' then
      (pyFloatDigitsDots restRev.reverse).map fun v => ⟨v.mantissa, v.fracDigits + 3⟩
    else if last = 'M' || last = 'm' then pyFloatDigitsDots restRev.reverse
    else if last = 'B' || last = 'b' then
      (pyFloatDigitsDots restRev.reverse).map fun v => ⟨v.mantissa * 1000, v.fracDigits⟩
    else (pyFloatDigitsDots core).map fun v => ⟨v.mantissa, v.fracDigits + 6⟩

/-- Follows the spec's words for candidate acceptance: employees normalized
to the lower bound of a range, revenue normalized to millions with K/M/B
handling, both must parse and lie within `[100, 5000]` and `[0.5, 50]`. -/
def candidateAcceptedSpecWords (c : Candidate) : Bool :=
  match empNormalize c.employees, revenueToMillionsSpecWords c.revenue with
  | some emp, some rev => decide (100 ≤ emp) && decide (emp ≤ 5000) && revInRange rev
  | _, _ => false

/-- Follows the spec's words for the email filter: keep exactly the addresses
whose domain equals the official site's registrable domain (last two host
labels); if none, those whose domain contains the brand token; if still
none, the full deduplicated set. -/
def filter_emails_specWords (emails : List String) (official_url : Option String) :
    List String :=
  if emails = [] then []
  else if ¬ pyTruthy official_url then pySortedSet emails
  else
    let host := pyLower (urlparseNetloc (official_url.getD ""))
    let parts := splitOnChar '.' host.data
    let registrable : List Char :=
      if parts.length ≥ 2 then
        parts.getD (parts.length - 2) [] ++ '.' :: parts.getD (parts.length - 1) []
      else host.data
    let strict := (dedupFirst emails).filter fun e =>
      ('@' :: registrable).isSuffixOf (pyLower e).data
    if strict ≠ [] then pySortedSet strict
    else
      let token : List Char := parts.getD (parts.length - 2) []
      let brand := (dedupFirst emails).filter fun e =>
        match emailDomain e with
        | some d => containsSub d.data token
        | none => false
      if brand ≠ [] then pySortedSet brand
      else pySortedSet emails

/-! ### Helper lemmas about the deduplication and sorting model -/

theorem lexLe_total : ∀ a b : List Char, lexLe a b = true ∨ lexLe b a = true := by
  intro a
  induction a with
  | nil => intro b; left; rfl
  | cons x xs ih =>
    intro b
    cases b with
    | nil => right; rfl
    | cons y ys =>
      by_cases hxy : x = y
      · subst hxy
        rcases ih ys with h | h
        · left; simp [lexLe, h]
        · right; simp [lexLe, h]
      · rcases lt_trichotomy x y with h | h | h
        · left; simp [lexLe, hxy, h]
        · exact absurd h hxy
        · right; simp [lexLe, Ne.symm hxy, h]

theorem lexLe_trans :
    ∀ a b c : List Char, lexLe a b = true → lexLe b c = true → lexLe a c = true := by
  intro a
  induction a with
  | nil => intro b c _ _; rfl
  | cons x xs ih =>
    intro b c hab hbc
    cases b with
    | nil => simp [lexLe] at hab
    | cons y ys =>
      cases c with
      | nil => simp [lexLe] at hbc
      | cons z zs =>
        by_cases hxy : x = y <;> by_cases hyz : y = z
        · subst hxy; subst hyz
          simp only [lexLe, if_pos rfl] at hab hbc ⊢
          exact ih ys zs hab hbc
        · subst hxy
          simp only [lexLe, if_pos rfl, if_neg hyz] at hbc ⊢
          exact hbc
        · subst hyz
          simp only [lexLe, if_neg hxy] at hab ⊢
          exact hab
        · simp only [lexLe, if_neg hxy, decide_eq_true_eq] at hab
          simp only [lexLe, if_neg hyz, decide_eq_true_eq] at hbc
          have hxz : x < z := lt_trans hab hbc
          simp [lexLe, ne_of_lt hxz, hxz]

instance : IsTotal String pyStrLe :=
  ⟨fun a b => lexLe_total a.data b.data⟩

instance : IsTrans String pyStrLe :=
  ⟨fun a b c => lexLe_trans a.data b.data c.data⟩

theorem mem_dedupFirstAux {a : String} :
    ∀ (xs seen : List String), a ∈ dedupFirstAux seen xs ↔ a ∈ xs ∧ a ∉ seen := by
  intro xs
  induction xs with
  | nil => intro seen; simp [dedupFirstAux]
  | cons x xs ih =>
    intro seen
    by_cases hx : x ∈ seen
    · simp only [dedupFirstAux, if_pos hx, ih, List.mem_cons]
      by_cases hax : a = x
      · subst hax; simp [hx]
      · simp [hax]
    · simp only [dedupFirstAux, if_neg hx, List.mem_cons, ih]
      by_cases hax : a = x
      · subst hax; simp [hx]
      · simp [hax]

theorem nodup_dedupFirstAux : ∀ (xs seen : List String), (dedupFirstAux seen xs).Nodup := by
  intro xs
  induction xs with
  | nil => intro seen; simp [dedupFirstAux]
  | cons x xs ih =>
    intro seen
    by_cases hx : x ∈ seen
    · simpa [dedupFirstAux, if_pos hx] using ih seen
    · simp only [dedupFirstAux, if_neg hx]
      refine List.nodup_cons.mpr ⟨fun hmem => ?_, ih _⟩
      exact ((mem_dedupFirstAux xs (x :: seen)).mp hmem).2 (List.mem_cons_self x seen)

theorem sublist_dedupFirstAux : ∀ (xs seen : List String),
    List.Sublist (dedupFirstAux seen xs) xs := by
  intro xs
  induction xs with
  | nil => intro seen; simp [dedupFirstAux]
  | cons x xs ih =>
    intro seen
    by_cases hx : x ∈ seen
    · simpa [dedupFirstAux, if_pos hx] using (ih seen).cons x
    · simpa [dedupFirstAux, if_neg hx] using (ih (x :: seen)).cons₂ x

theorem mem_dedupFirst {a : String} {xs : List String} : a ∈ dedupFirst xs ↔ a ∈ xs := by
  simp [dedupFirst, mem_dedupFirstAux]

theorem nodup_dedupFirst (xs : List String) : (dedupFirst xs).Nodup :=
  nodup_dedupFirstAux xs []

theorem sublist_dedupFirst (xs : List String) : List.Sublist (dedupFirst xs) xs :=
  sublist_dedupFirstAux xs []

theorem mem_pySortedSet {a : String} {xs : List String} : a ∈ pySortedSet xs ↔ a ∈ xs := by
  simp [pySortedSet, List.mem_insertionSort, mem_dedupFirst]

theorem sorted_pySortedSet (xs : List String) : (pySortedSet xs).Sorted pyStrLe :=
  List.sorted_insertionSort _ _

theorem nodup_pySortedSet (xs : List String) : (pySortedSet xs).Nodup :=
  (List.perm_insertionSort _ _).nodup_iff.mpr (nodup_dedupFirst xs)

/-- Every branch of `filter_emails_by_domain` returns `pySortedSet` of a list
of input elements. -/
theorem filter_emails_eq_sortedSet (emails : List String) (url : Option String) :
    ∃ l, (∀ e, e ∈ l → e ∈ emails) ∧ filter_emails_by_domain emails url = pySortedSet l := by
  unfold filter_emails_by_domain
  by_cases h1 : emails = []
  · refine ⟨[], by simp, ?_⟩
    simp [h1, pySortedSet, dedupFirst, dedupFirstAux]
  · by_cases h2 : pyTruthy url
    · cases hrt : root_token (some (urlparseNetloc (url.getD ""))) with
      | none =>
        refine ⟨emails, fun e he => he, ?_⟩
        simp [h1, h2, hrt]
      | some token =>
        by_cases h3 : token = ""
        · refine ⟨emails, fun e he => he, ?_⟩
          simp [h1, h2, hrt, h3]
        · refine ⟨(dedupFirst emails).filter fun e =>
            match emailDomain e with
            | some d => containsSub d.data token.data
            | none => false, fun e he => mem_dedupFirst.mp (List.mem_of_mem_filter he), ?_⟩
          simp [h1, h2, hrt, h3]
    · refine ⟨emails, fun e he => he, ?_⟩
      simp [h1, h2]

/-- The output of `filter_emails_by_domain` is sorted, duplicate-free, and
draws only on input addresses. -/
theorem filter_emails_by_domain_shape (emails : List String) (url : Option String) :
    (filter_emails_by_domain emails url).Sorted pyStrLe ∧
    (filter_emails_by_domain emails url).Nodup ∧
    ∀ e, e ∈ filter_emails_by_domain emails url → e ∈ emails := by
  obtain ⟨l, hsub, heq⟩ := filter_emails_eq_sortedSet emails url
  rw [heq]
  exact ⟨sorted_pySortedSet l, nodup_pySortedSet l, fun e he => hsub e (mem_pySortedSet.mp he)⟩

/-! ### Claim theorems -/

/-- C1 (counterexample): the effective email filter has neither an exact
registrable-domain stage nor a full-set fallback.  With emails
`["b@other.com"]` and site `https://www.brand.com` the claim predicts the
full deduplicated set `["b@other.com"]`, but the code returns `[]`; and with
`["a@brand.com", "c@brandx.net"]` the claim's exact-registrable-domain stage
would keep only `a@brand.com`, but the code keeps both (brand-token
containment only), diverging from the spec-words filter. -/
theorem C1_email_filter_counterexample :
    filter_emails_by_domain ["b@other.com"] (some "https://www.brand.com") = [] ∧
    dedupFirst ["b@other.com"] = ["b@other.com"] ∧
    filter_emails_by_domain ["b@other.com"] (some "https://www.brand.com") ≠ ["b@other.com"] ∧
    filter_emails_specWords ["b@other.com"] (some "https://www.brand.com") = ["b@other.com"] ∧
    filter_emails_by_domain ["a@brand.com", "c@brandx.net"] (some "https://www.brand.com") =
      ["a@brand.com", "c@brandx.net"] ∧
    filter_emails_specWords ["a@brand.com", "c@brandx.net"] (some "https://www.brand.com") =
      ["a@brand.com"] := by
  refine ⟨by decide, by decide, by decide, by decide, by decide, by decide⟩

/-- C1 (amended): with a truthy official URL yielding a truthy brand token,
the fusion email filter keeps exactly the deduplicated addresses whose
domain contains the site's brand token (second-level host label) as a
substring — there is no exact-registrable-domain stage, and when no address
matches the surviving set is empty, not the full set; with no official URL
the full deduplicated set survives.  The surviving set is always sorted
ascending and duplicate-free and draws only on input addresses, so the
record's primary email (its head) is the lexicographically smallest
survivor. -/
theorem C1_email_filter_amended :
    filter_emails_by_domain ["a@brand.com", "b@other.com"] (some "https://www.brand.com") =
      ["a@brand.com"] ∧
    filter_emails_by_domain ["b@other.com"] (some "https://www.brand.com") = [] ∧
    filter_emails_by_domain ["b@other.com"] none = ["b@other.com"] ∧
    (∀ emails url, (filter_emails_by_domain emails url).Sorted pyStrLe ∧
      (filter_emails_by_domain emails url).Nodup) ∧
    (∀ emails url e, e ∈ filter_emails_by_domain emails url → e ∈ emails) := by
  refine ⟨by decide, by decide, by decide, fun emails url => ?_, fun emails url e he => ?_⟩
  · exact ⟨(filter_emails_by_domain_shape emails url).1,
      (filter_emails_by_domain_shape emails url).2.1⟩
  · exact (filter_emails_by_domain_shape emails url).2.2 e he

/-- C1 (witness): the amended theorem's membership implication at a concrete
input. -/
theorem C1_email_filter_witness : "a@brand.com" ∈ ["a@brand.com", "b@other.com"] :=
  C1_email_filter_amended.2.2.2.2 ["a@brand.com", "b@other.com"]
    (some "https://www.brand.com") "a@brand.com" (by decide)

/-- C8 (counterexample): the merged phone collection is ordered by sorting,
not by insertion order of first occurrence — `+22222222` was inserted first
but the code puts `+11111111` first. -/
theorem C8_dedup_counterexample :
    merge_and_clean_phones ["+22222222", "+11111111"] = ["+11111111", "+22222222"] ∧
    dedupFirst ["+22222222", "+11111111"] = ["+22222222", "+11111111"] ∧
    merge_and_clean_phones ["+22222222", "+11111111"] ≠
      dedupFirst ["+22222222", "+11111111"] := by
  refine ⟨by decide, by decide, by decide⟩

/-- C8 (amended): before primary selection the merged email and phone
collections are deduplicated and sorted ascending (not insertion-ordered),
while the scraped professional-network link candidates are deduplicated in
insertion order of first occurrence (a hint link is prepended separately). -/
theorem C8_dedup_amended :
    (∀ raws, (merge_and_clean_phones raws).Sorted pyStrLe ∧
      (merge_and_clean_phones raws).Nodup) ∧
    (∀ emails url, (filter_emails_by_domain emails url).Sorted pyStrLe ∧
      (filter_emails_by_domain emails url).Nodup) ∧
    (∀ links, (dedupFirst links).Nodup ∧ List.Sublist (dedupFirst links) links) := by
  refine ⟨fun raws => ?_, fun emails url => ?_, fun links => ?_⟩
  · exact ⟨sorted_pySortedSet _, nodup_pySortedSet _⟩
  · exact ⟨(filter_emails_by_domain_shape emails url).1,
      (filter_emails_by_domain_shape emails url).2.1⟩
  · exact ⟨nodup_dedupFirst links, sublist_dedupFirst links⟩

/-- C9: fusing an empty signal sequence (no search results, no scraped rows,
no map place, no hint link) yields a lead record whose every optional field
is empty, with only the lead identity populated from the query. -/
theorem C9_empty_fusion (tzAt : ℚ → ℚ → Option String) (q : String) :
    assemble_lead_record tzAt q [] [] none none =
      { leadName := q, designationRole := "", companyName := "", countryCity := "",
        industrySegment := "", propertyType := "", starRating := "", emailID := "",
        phoneVerified := "", linkedinURL := "", departmentFunction := "", timeZone := "",
        companyNameLinked := "", websiteURL := "", numberOfProperties := "",
        numberOfRooms := "", averageDailyRate := "", locationsOfOperation := "",
        industryType := "", googleRating := "", totalGoogleReviews := "" } := rfl

/-- C10: `google_search` truncates its shaped results with
`results[:max_results]`, so at most `max_results` entries are returned no
matter how many organic or flat items the dataset held. -/
theorem C10_google_truncation (items : List GSearchItem) (max_results : Nat)
    (h : 1 ≤ max_results) :
    (google_search_results items max_results).length ≤ max_results := by
  simpa [google_search_results] using List.length_take_le max_results (googleCollect items)

/-- C10 (witness): the truncation bound at a concrete dataset of three flat
items and `max_results = 2`. -/
theorem C10_google_truncation_witness :
    1 ≤ 2 ∧
    (google_search_results
      [{ organicResults := none, url := some "https://a.com", title := none, snippet := none,
         description := none, sitelinks := none, siteLinks := none },
       { organicResults := none, url := some "https://b.com", title := none, snippet := none,
         description := none, sitelinks := none, siteLinks := none },
       { organicResults := none, url := some "https://c.com", title := none, snippet := none,
         description := none, sitelinks := none, siteLinks := none }] 2).length ≤ 2 :=
  ⟨by decide, C10_google_truncation _ 2 (by decide)⟩

/-- If every status up to offset `j` past `n` is non-terminal and observed
within budget, and the status at offset `j` is terminal, the polling loop
started at `n` returns that run. -/
theorem poll_reaches_terminal (statuses : Nat → String) (elapsed : Nat → ℚ) (T : ℚ) :
    ∀ fuel j n, (∀ k, k < j → statuses (n + k) ∉ terminalStatuses ∧ elapsed (n + k) ≤ T) →
      statuses (n + j) ∈ terminalStatuses → j < fuel →
      wait_for_run_finished statuses elapsed T fuel n =
        some (.finished (statuses (n + j))) := by
  intro fuel
  induction fuel with
  | zero => intro j n _ _ hj; omega
  | succ fuel ih =>
    intro j n hpre hterm hj
    cases j with
    | zero =>
      simp only [Nat.add_zero] at hterm
      simp [wait_for_run_finished, hterm]
    | succ j =>
      have h0 := hpre 0 (Nat.succ_pos j)
      simp only [Nat.add_zero] at h0
      have hnt : statuses n ∉ terminalStatuses := h0.1
      have hel : ¬ elapsed n > T := not_lt.mpr h0.2
      have hrec := ih j (n + 1)
        (fun k hk => by
          have := hpre (k + 1) (by omega)
          simpa [Nat.add_assoc, Nat.add_comm 1 k] using this)
        (by
          have : n + 1 + j = n + (j + 1) := by omega
          rw [this]; exact hterm)
        (by omega)
      have harg : n + 1 + j = n + (j + 1) := by omega
      rw [harg] at hrec
      simp only [wait_for_run_finished, if_neg hnt, if_neg hel]
      exact hrec

/-- C2: for a job whose status never becomes terminal the polling loop never
returns a run; whenever it returns at all it raises the timeout, and the
elapsed time it measured at the raise strictly exceeds the configured
budget.  For a job whose status reaches one of the five terminal spellings
(Succeeded / Failed / Aborted / either TimedOut spelling) at the first poll
where it is observed — all earlier polls non-terminal and within budget —
the loop returns exactly that run at that poll. -/
theorem C2_poll_timeout_contract :
    (∀ (statuses : Nat → String) (elapsed : Nat → ℚ) (T : ℚ) (fuel n : Nat) (r : PollResult),
      (∀ k, statuses k ∉ terminalStatuses) →
      wait_for_run_finished statuses elapsed T fuel n = some r →
      ∃ t s, r = .timedOut t s ∧ T < t) ∧
    (∀ (statuses : Nat → String) (elapsed : Nat → ℚ) (T : ℚ) (j fuel : Nat),
      (∀ k, k < j → statuses k ∉ terminalStatuses ∧ elapsed k ≤ T) →
      statuses j ∈ terminalStatuses → j < fuel →
      wait_for_run_finished statuses elapsed T fuel 0 =
        some (.finished (statuses j))) := by
  constructor
  · intro statuses elapsed T fuel
    induction fuel with
    | zero => intro n r _ heq; simp [wait_for_run_finished] at heq
    | succ fuel ih =>
      intro n r hnever heq
      simp only [wait_for_run_finished, if_neg (hnever n)] at heq
      by_cases hel : elapsed n > T
      · rw [if_pos hel] at heq
        obtain rfl := (Option.some_inj.mp heq).symm
        exact ⟨elapsed n, statuses n, rfl, hel⟩
      · rw [if_neg hel] at heq
        exact ih (n + 1) r hnever heq
  · intro statuses elapsed T j fuel hpre hterm hlt
    have := poll_reaches_terminal statuses elapsed T fuel j 0
      (fun k hk => by simpa using hpre k hk)
      (by simpa using hterm) hlt
    simpa using this

/-- C2 (witness): the contract at concrete inputs — a constantly `READY` job
with unit-second polls and a one-second budget times out with elapsed time 2,
and a job that is `SUCCEEDED` at the first poll is returned at once. -/
theorem C2_poll_timeout_contract_witness :
    (∃ t s, PollResult.timedOut 2 "READY" = PollResult.timedOut t s ∧ (1 : ℚ) < t) ∧
    wait_for_run_finished (fun _ => "SUCCEEDED") (fun _ => 0) 10 1 0 =
      some (.finished "SUCCEEDED") := by
  constructor
  · exact C2_poll_timeout_contract.1 (fun _ => "READY") (fun k => (k : ℚ)) 1 3 0
      (.timedOut 2 "READY") (fun k => by show "READY" ∉ terminalStatuses; decide) (by decide)
  · exact C2_poll_timeout_contract.2 (fun _ => "SUCCEEDED") (fun _ => 0) 10 0 1
      (fun k hk => absurd hk (by omega)) (by decide) (by omega)

/-- The function `validate_companies` partitions its input, unchanged and in order, by the
acceptance test. -/
theorem validate_companies_eq_partition (cs : List Candidate) :
    validate_companies cs =
      (cs.filter candidateAccepted, cs.filter fun c => !(candidateAccepted c)) := by
  induction cs with
  | nil => rfl
  | cons c cs ih =>
    simp only [validate_companies, ih, List.filter_cons]
    rcases h1 : empNormalize c.employees with _ | emp <;>
      rcases h2 : revNormalize c.revenue with _ | rev <;>
      simp only [candidateAccepted, h1, h2]
    · simp
    · simp
    · simp
    · by_cases hb : (decide (100 ≤ emp) && decide (emp ≤ 5000) && revInRange rev) = true
      · simp [hb]
      · simp [hb]

/-- C3 (counterexample): `validate_companies` performs no K/M/B or comma
normalization — it strips everything but digits and dots.  A candidate with
200 employees and revenue `$500K` (0.5 million, inside the accepted range
under the spec's normalization) is rejected by the code, which reads the
revenue as 500. -/
theorem C3_validate_counterexample :
    candidateAcceptedSpecWords
      { company := "Acme", website := "https://acme.example", revenue := "$500K",
        headquarters := "Paris, France", employees := "200", source := "Web" } = true ∧
    revNormalize "$500K" = some ⟨500, 0⟩ ∧
    validate_companies
      [{ company := "Acme", website := "https://acme.example", revenue := "$500K",
         headquarters := "Paris, France", employees := "200", source := "Web" }] =
      ([], [{ company := "Acme", website := "https://acme.example", revenue := "$500K",
              headquarters := "Paris, France", employees := "200", source := "Web" }]) := by
  refine ⟨by decide, by decide, by decide⟩

/-- C3 (amended): `validate_companies` normalizes the employee string to the
digits of its segment before the first hyphen and the revenue string to the
number formed by its digits and dots with no unit conversion (so only
M-suffixed dollar amounts are read as millions; K/B suffixes and
comma-separated full amounts are taken at face value), and accepts a
candidate iff both values parse, the employee count lies in `[100, 5000]`
and the read revenue number lies in `[0.5, 50]`; employees `100-500` with
revenue `$25M` is accepted, employees `50` and revenue `$75M` each cause
rejection. -/
theorem C3_validate_amended :
    (∀ cs, (validate_companies cs).1 = cs.filter candidateAccepted) ∧
    validate_companies
      [{ company := "A", website := "w", revenue := "$25M", headquarters := "h",
         employees := "100-500", source := "s" }] =
      ([{ company := "A", website := "w", revenue := "$25M", headquarters := "h",
          employees := "100-500", source := "s" }], []) ∧
    validate_companies
      [{ company := "B", website := "w", revenue := "$25M", headquarters := "h",
         employees := "50", source := "s" }] =
      ([], [{ company := "B", website := "w", revenue := "$25M", headquarters := "h",
              employees := "50", source := "s" }]) ∧
    validate_companies
      [{ company := "C", website := "w", revenue := "$75M", headquarters := "h",
         employees := "100-500", source := "s" }] =
      ([], [{ company := "C", website := "w", revenue := "$75M", headquarters := "h",
              employees := "100-500", source := "s" }]) := by
  refine ⟨fun cs => ?_, by decide, by decide, by decide⟩
  rw [validate_companies_eq_partition cs]

/-- C4 (counterexample): a candidate failing both checks — unparseable
employee value `abc` and out-of-range revenue `$75M` — is returned in the
rejected list as the bare, unmodified input candidate: the returned outcome
carries no reason list at all, so distinct per-check reasons are never
recorded. -/
theorem C4_reasons_counterexample :
    validate_companies
      [{ company := "Acme", website := "w", revenue := "$75M", headquarters := "h",
         employees := "abc", source := "s" }] =
      ([], [{ company := "Acme", website := "w", revenue := "$75M", headquarters := "h",
              employees := "abc", source := "s" }]) := by decide

/-- C4 (amended): every rejected candidate is returned unchanged, in input
order, in the second component; `validate_companies` attaches no rejection
reasons of any kind. -/
theorem C4_rejected_unchanged (cs : List Candidate) :
    (validate_companies cs).2 = cs.filter fun c => !(candidateAccepted c) := by
  rw [validate_companies_eq_partition cs]

/-- C5 (counterexample): the code keeps every plus sign, not only a leading
one — on `1234+5678` it returns the interior plus, where the spec's words
demand it be stripped. -/
theorem C5_phone_counterexample :
    clean_phone "1234+5678" = some "1234+5678" ∧
    clean_phone_specWords "1234+5678" = some "12345678" ∧
    ("1234+5678" : String) ≠ "12345678" := by
  refine ⟨by decide, by decide, by decide⟩

/-- Stripping to digits-and-plus preserves the digit subsequence. -/
theorem digits_of_filter_plus (l : List Char) :
    (l.filter fun c => c.isDigit || c = '+').filter Char.isDigit = l.filter Char.isDigit := by
  rw [List.filter_filter]
  apply List.filter_congr
  intro c _
  cases hc : c.isDigit <;> simp [hc]

/-- C5 (amended): phone cleaning strips every character except digits and
plus signs (a plus sign anywhere is kept), and gates on the digit count of
the input: fewer than 8 or more than 15 digits yields no phone, 8 through 15
digits yields the stripped string. -/
theorem C5_phone_amended (p : String) :
    ((p.data.filter Char.isDigit).length < 8 ∨ 15 < (p.data.filter Char.isDigit).length →
      clean_phone p = none) ∧
    (8 ≤ (p.data.filter Char.isDigit).length → (p.data.filter Char.isDigit).length ≤ 15 →
      clean_phone p = some ⟨p.data.filter fun c => c.isDigit || c = '+'⟩) ∧
    (∀ out, clean_phone p = some out → ∀ c ∈ out.data, c.isDigit = true ∨ c = '+') := by
  refine ⟨fun h => ?_, fun h8 h15 => ?_, fun out hout c hc => ?_⟩
  · simp only [clean_phone, digits_of_filter_plus]
    have hb : (decide ((p.data.filter Char.isDigit).length < 8) ||
        decide (15 < (p.data.filter Char.isDigit).length)) = true := by
      rcases h with h | h <;> simp [h]
    simp [hb]
  · simp only [clean_phone, digits_of_filter_plus]
    have hb : (decide ((p.data.filter Char.isDigit).length < 8) ||
        decide (15 < (p.data.filter Char.isDigit).length)) = false := by
      simp [Nat.not_lt.mpr h8, Nat.not_lt.mpr h15]
    simp [hb]
  · simp only [clean_phone] at hout
    split at hout
    · exact absurd hout (by simp)
    · obtain rfl : (⟨p.data.filter fun c => c.isDigit || c = '+'⟩ : String) = out :=
        Option.some_inj.mp hout
      have := (List.mem_filter.mp hc).2
      simpa using this

/-- C5 (witness): the amended digit-count gates at concrete inputs with 7,
8, 15 and 16 digits. -/
theorem C5_phone_witness :
    clean_phone "+12 34 56 7" = none ∧
    clean_phone "+12 34 56 78" = some "+12345678" ∧
    clean_phone "123 456 789 012 345" = some "123456789012345" ∧
    clean_phone "123 456 789 012 345 6" = none := by
  refine ⟨?_, ?_, ?_, ?_⟩
  · exact (C5_phone_amended "+12 34 56 7").1 (by decide)
  · exact ((C5_phone_amended "+12 34 56 78").2.1 (by decide) (by decide)).trans (by decide)
  · exact ((C5_phone_amended "123 456 789 012 345").2.1 (by decide) (by decide)).trans (by decide)
  · exact (C5_phone_amended "123 456 789 012 345 6").1 (by decide)

/-- Unfold `(⟨l⟩ : String).data`. -/
theorem data_mk (l : List Char) : (⟨l⟩ : String).data = l := rfl

/-- Elements survive `rstripChar` only from the original list. -/
theorem mem_rstripChar {a c : Char} {l : List Char} (h : a ∈ rstripChar c l) : a ∈ l := by
  unfold rstripChar at h
  rw [List.mem_reverse] at h
  exact List.mem_reverse.mp ((List.dropWhile_sublist _).subset h)

/-- The function `strip_trailing_dash` only ever removes characters. -/
theorem data_strip_trailing_dash_subset {a : Char} {u : String}
    (h : a ∈ (strip_trailing_dash u).data) : a ∈ u.data := by
  unfold strip_trailing_dash at h
  split at h
  · rw [data_mk] at h
    exact (List.dropLast_sublist u.data).subset h
  · exact h

/-- A normalized link contains no `?`: the first step cuts at the first `?`
and every later step only removes characters. -/
theorem not_q_normalizeLink (s : String) : '?' ∉ (normalizeLink s).data := by
  intro hq
  simp only [normalizeLink] at hq
  have h3 : '?' ∈
      (if "/posts".data.isSuffixOf (rstripChar '/' (takeUntilChar '?' s.data)) = true then
        rstripChar '/' ((rstripChar '/' (takeUntilChar '?' s.data)).take
          ((rstripChar '/' (takeUntilChar '?' s.data)).length - 6))
      else rstripChar '/' (takeUntilChar '?' s.data)) := by
    have := data_strip_trailing_dash_subset hq
    rw [data_mk] at this
    exact this
  have h2 : '?' ∈ rstripChar '/' (takeUntilChar '?' s.data) := by
    split at h3
    · exact List.mem_of_mem_take (mem_rstripChar h3)
    · exact h3
  have h1 : '?' ∈ takeUntilChar '?' s.data := mem_rstripChar h2
  have := List.mem_takeWhile_imp h1
  simp at this

/-- The function `takeUntilChar` is the identity when the character is absent. -/
theorem takeUntilChar_eq_self {c : Char} {l : List Char}
    (h : ∀ a ∈ l, a ≠ c) : takeUntilChar c l = l := by
  unfold takeUntilChar
  rw [List.takeWhile_eq_self_iff]
  intro x hx
  simpa using h x hx

/-- The function `rstripChar` is the identity when the list does not end in the
character. -/
theorem rstripChar_eq_self {c : Char} {l : List Char}
    (h : [c].isSuffixOf l = false) : rstripChar c l = l := by
  unfold rstripChar
  cases hrev : l.reverse with
  | nil =>
    have hl : l = [] := by simpa using congrArg List.reverse hrev
    simp [hl]
  | cons x t =>
    have hx : ¬ x = c := by
      intro hxc
      subst hxc
      rw [List.isSuffixOf] at h
      simp only [List.reverse_cons, List.reverse_nil, List.nil_append, hrev] at h
      simp [List.isPrefixOf] at h
    have hl : (x :: t).reverse = l := by
      have := congrArg List.reverse hrev
      simpa using this.symm
    rw [List.dropWhile_cons]
    simp [hx, hl]

/-- The function `strip_trailing_dash` is the identity when the string does not end in a
hyphen. -/
theorem strip_trailing_dash_eq_self {u : String}
    (h : ['-'].isSuffixOf u.data = false) : strip_trailing_dash u = u := by
  unfold strip_trailing_dash
  rw [if_neg]
  simp [h]

/-- C6 (counterexample): link normalization is not idempotent — a link
ending in two hyphens normalizes to one still ending in a hyphen, which a
second application shortens further. -/
theorem C6_link_idempotence_counterexample :
    normalizeLink "https://www.linkedin.com/company/acme--" =
      "https://www.linkedin.com/company/acme-" ∧
    normalizeLink "https://www.linkedin.com/company/acme-" =
      "https://www.linkedin.com/company/acme" ∧
    normalizeLink (normalizeLink "https://www.linkedin.com/company/acme--") ≠
      normalizeLink "https://www.linkedin.com/company/acme--" := by
  refine ⟨by decide, by decide, by decide⟩

/-- C6 (amended): link normalization is idempotent on every link whose
normal form does not itself end in `-`, `/` or `/posts` (the hyphen- or
posts-stripping steps can expose such endings, which a second pass removes);
and `.../company/acme/posts` normalizes to `.../company/acme`. -/
theorem C6_link_normalize_amended :
    (∀ s : String,
      ['-'].isSuffixOf (normalizeLink s).data = false →
      ['/'].isSuffixOf (normalizeLink s).data = false →
      "/posts".data.isSuffixOf (normalizeLink s).data = false →
      normalizeLink (normalizeLink s) = normalizeLink s) ∧
    normalizeLink "https://www.linkedin.com/company/acme/posts" =
      "https://www.linkedin.com/company/acme" := by
  constructor
  · intro s h1 h2 h3
    have hq := not_q_normalizeLink s
    generalize hL : normalizeLink s = L at h1 h2 h3 hq ⊢
    have hu1 : takeUntilChar '?' L.data = L.data :=
      takeUntilChar_eq_self fun a ha hac => hq (hac ▸ ha)
    have hu2 : rstripChar '/' L.data = L.data := rstripChar_eq_self h2
    simp only [normalizeLink, hu1, hu2, h3]
    exact strip_trailing_dash_eq_self h1
  · decide

/-- C6 (witness): idempotence at a concrete already-normal link. -/
theorem C6_link_normalize_witness :
    normalizeLink (normalizeLink "https://www.linkedin.com/company/acme") =
      normalizeLink "https://www.linkedin.com/company/acme" :=
  C6_link_normalize_amended.1 "https://www.linkedin.com/company/acme"
    (by decide) (by decide) (by decide)

/-- C7: industry classification tests the lowercase blob against the ordered
taxonomy with the hospitality cluster first: any text containing `hotel`
classifies as `("Hospitality", "Hotel")` no matter what else (e.g.
`software`) it contains, and a text containing no taxonomy keyword leaves
both segment and type empty. -/
theorem C7_industry_priority :
    (∀ category schema : String,
      containsSub (classifyText category schema) "hotel".data = true →
      classify_industry category schema = ("Hospitality", "Hotel")) ∧
    (∀ category schema : String,
      (∀ kw ∈ classifierKeywords,
        containsSub (classifyText category schema) kw.data = false) →
      classify_industry category schema = ("", "")) := by
  constructor
  · intro category schema h
    simp [classify_industry, h]
  · intro category schema hall
    have g1 := hall "hotel" (by decide)
    have g2 := hall "resort" (by decide)
    have g3 := hall "lodging" (by decide)
    have g4 := hall "accommodation" (by decide)
    have g5 := hall "apartment" (by decide)
    have g6 := hall "stay" (by decide)
    have g7 := hall "hostel" (by decide)
    have g8 := hall "software" (by decide)
    have g9 := hall "it" (by decide)
    have g10 := hall "technology" (by decide)
    have g11 := hall "saas" (by decide)
    have g12 := hall "ai" (by decide)
    have g13 := hall "data" (by decide)
    have g14 := hall "restaurant" (by decide)
    have g15 := hall "cafe" (by decide)
    have g16 := hall "bar" (by decide)
    simp [classify_industry, g1, g2, g3, g4, g5, g6, g7, g8, g9, g10, g11, g12, g13,
      g14, g15, g16]

/-- C7 (witness): the two parts at concrete category blobs. -/
theorem C7_industry_priority_witness :
    classify_industry "hotel software" "" = ("Hospitality", "Hotel") ∧
    classify_industry "plumbing services" "" = ("", "") :=
  ⟨C7_industry_priority.1 "hotel software" "" (by decide),
   C7_industry_priority.2 "plumbing services" "" (by decide)⟩
